import Mathlib

/-!
Verification development for the CAPythons personal-information manager.

The definitions below are shallow embeddings of the Python source under
`src/CAPythonsBook/app/` (entities.py, services.py, interfaces.py) and of
the legacy variant `src/assistant_bot.py`.  Python exceptions are modelled
by the `PyErr` type, mutation by explicit state passing (a method that
mutates a store becomes a function returning the new store), and Python
dicts by insertion-ordered association lists.  Unicode-only behaviours of
Python's `str` methods and of the `re` module are modelled over ASCII:
`\d` and `str.isdigit` are modelled as the ASCII digits `0`-`9`.
-/

namespace CAPythons

/-- The Python exception kinds raised or caught by the code under study. -/
inductive PyErr where
  | valueError
  | keyError
  | typeError
  | attributeError
  | indexError
deriving DecidableEq, Repr

/-- ASCII decimal digit, the model of `\d` in the phone regex and of
`str.isdigit`. -/
def isDigitCh (c : Char) : Bool := '0' ≤ c && c ≤ '9'

/-- A character in the regex class `[1-9]`. -/
def isNonzeroDigit (c : Char) : Bool := '1' ≤ c && c ≤ '9'

/-! ## entities.Phone (CAPythonsBook variant)

`Phone.__init__` validates its argument against the regex
`^\+?[1-9]\d{9,14}$` using `re.match` and stores the original string
unchanged.  `re.match` anchors at the start; the `$` anchor in Python
matches at the end of the string or just before a single trailing
newline, which the operational matcher below reproduces. -/

/-- The value stored by a successfully constructed `entities.Phone`. -/
structure Phone where
  value : String
deriving DecidableEq, Repr

/-- Operational matcher for the part `[1-9]\d{9,14}` of the phone regex. -/
def phoneBody : List Char → Bool
  | [] => false
  | c :: rest =>
      isNonzeroDigit c && rest.all isDigitCh &&
        decide (9 ≤ rest.length) && decide (rest.length ≤ 14)

/-- Operational matcher for `[1-9]\d{9,14}$` with Python's `$` semantics:
the body may be followed by one trailing newline. -/
def phoneAnchored (l : List Char) : Bool :=
  phoneBody l ||
    (match l.getLast? with
     | some c => c = '\n' && phoneBody l.dropLast
     | none => false)

/-- Operational matcher for the full pattern `^\+?[1-9]\d{9,14}$`. -/
def phoneFullmatch (l : List Char) : Bool :=
  match l with
  | '+' :: rest => phoneAnchored rest
  | _ => phoneAnchored l

/-- `entities.Phone.__init__`: store the string if the pattern matches,
otherwise raise `ValueError`. -/
def Phone.init (s : String) : Except PyErr Phone :=
  if phoneFullmatch s.data then .ok ⟨s⟩ else .error .valueError

/-- Declarative reading of `[1-9]\d{9,14}`: a first digit in `1`-`9`
followed by further digits, 10 to 15 digits in total. -/
def PhoneDigits (l : List Char) : Prop :=
  ∃ d t, l = d :: t ∧ isNonzeroDigit d = true ∧
    (∀ c ∈ t, isDigitCh c = true) ∧ 10 ≤ l.length ∧ l.length ≤ 15

/-- Declarative reading of the whole pattern as Python's `re.match`
interprets it: an optional leading `+`, the digit core, and (because `$`
also matches before a final newline) an optional trailing newline. -/
def PhoneMatches (s : String) : Prop :=
  ∃ pre core suf, s.data = pre ++ core ++ suf ∧
    (pre = [] ∨ pre = ['+']) ∧ PhoneDigits core ∧ (suf = [] ∨ suf = ['\n'])

/-! ## assistant_bot.Phone (legacy variant)

`Phone.__init__` in assistant_bot.py accepts exactly the strings `value`
with `value.isdigit()` true and `len(value.strip()) == 10`. -/

/-- The value stored by a successfully constructed legacy phone. -/
structure LegacyPhone where
  value : String
deriving DecidableEq, Repr

/-- Model of `str.isdigit`: non-empty and all (ASCII) digits. -/
def pyIsDigitStr (l : List Char) : Bool := !l.isEmpty && l.all isDigitCh

/-- The whitespace characters removed by `str.strip` (ASCII subset). -/
def isPySpace (c : Char) : Bool :=
  c = ' ' || c = '\t' || c = '\n' || c = '\r' || c = '\x0b' || c = '\x0c'

/-- Model of `str.strip`: drop whitespace from both ends. -/
def pyStrip (l : List Char) : List Char :=
  ((l.dropWhile isPySpace).reverse.dropWhile isPySpace).reverse

/-- `assistant_bot.Phone.__init__`: raise `ValueError` unless the string
is all digits and its stripped length is exactly 10. -/
def LegacyPhone.init (s : String) : Except PyErr LegacyPhone :=
  if !pyIsDigitStr s.data || (pyStrip s.data).length ≠ 10 then
    .error .valueError
  else
    .ok ⟨s⟩

/-! ## Records and the contact store

`entities.Record` keeps a Python dict `fields` mapping a field name to
either a single `Field` (wrapping one string) or a list of `Field`s.
Dicts are modelled as insertion-ordered association lists: assignment
replaces the first binding in place or appends a fresh one, deletion
removes the binding.  `record.id` (a uuid) is modelled as a `Nat`. -/

/-- The value bound to a field name: a single `Field` or a list. -/
inductive FieldEntry where
  | one (v : String)
  | many (vs : List String)
deriving DecidableEq, Repr

/-- A Python dict from field names to field values. -/
abbrev Fields := List (String × FieldEntry)

/-- Dict lookup `d[k]` / `d.get(k)`: first binding wins. -/
def dictGet : Fields → String → Option FieldEntry
  | [], _ => none
  | (k', v) :: rest, k => if k' = k then some v else dictGet rest k

/-- Dict assignment `d[k] = v`: overwrite the existing binding in place,
or append a new one. -/
def dictSet : Fields → String → FieldEntry → Fields
  | [], k, v => [(k, v)]
  | (k', v') :: rest, k, v =>
      if k' = k then (k, v) :: rest else (k', v') :: dictSet rest k v

/-- Dict deletion `del d[k]`: remove the binding. -/
def dictDel : Fields → String → Fields
  | [], _ => []
  | (k', v') :: rest, k => if k' = k then rest else (k', v') :: dictDel rest k

/-- `entities.Record`: a uuid (modelled as `Nat`) plus the fields dict. -/
structure Rec where
  id : Nat
  fields : Fields
deriving DecidableEq, Repr

namespace Rec

/-- `Record.__init__(name)` (with no extra fields): the fields dict
starts as `{"name": name}`. -/
def init (id : Nat) (name : String) : Rec := ⟨id, [("name", .one name)]⟩

/-- `Record.add_field(field_name, field)`: `self.fields[field_name] = field`
(the annotation takes a single `Field`). -/
def addField (r : Rec) (k v : String) : Rec :=
  { r with fields := dictSet r.fields k (.one v) }

/-- `Record.remove_field(field_name)`: delete the binding if present. -/
def removeField (r : Rec) (k : String) : Rec :=
  if (dictGet r.fields k).isSome then { r with fields := dictDel r.fields k }
  else r

/-- `Record.edit_field(field_name, new_field)`: overwrite if present. -/
def editField (r : Rec) (k v : String) : Rec :=
  if (dictGet r.fields k).isSome then
    { r with fields := dictSet r.fields k (.one v) }
  else r

/-- `Record.add_phone(phone)`: ensure `fields["phones"]` exists (creating
an empty list) and append.  If the binding is a single `Field`, the call
`self.fields["phones"].append(...)` raises `AttributeError` (a `Field`
has no `append`); the `none` fallthrough after the ensure step cannot
occur. -/
def addPhone (r : Rec) (p : String) : Except PyErr Rec :=
  let r1 :=
    if dictGet r.fields "phones" = none then
      { r with fields := dictSet r.fields "phones" (.many []) }
    else r
  match dictGet r1.fields "phones" with
  | some (.many fs) =>
      .ok { r1 with fields := dictSet r1.fields "phones" (.many (fs ++ [p])) }
  | some (.one _) => .error .attributeError
  | none => .error .attributeError

end Rec

/-- `entities.Name.__init__`: reject the empty string with `ValueError`,
otherwise store the value. -/
def nameInit (s : String) : Except PyErr String :=
  if s = "" then .error .valueError else .ok s

/-- `entities.AddressBook`: a dict from record id to record. -/
abbrev Book := List (Nat × Rec)

/-- Lookup a record by id in the address book dict. -/
def bookGet : Book → Nat → Option Rec
  | [], _ => none
  | (i, r) :: rest, rid => if i = rid then some r else bookGet rest rid

/-- `AddressBook.add_record(record)`: `self.data[record.id] = record`. -/
def bookSet : Book → Nat → Rec → Book
  | [], rid, r => [(rid, r)]
  | (i, r') :: rest, rid, r =>
      if i = rid then (rid, r) :: rest else (i, r') :: bookSet rest rid r

/-- `del self.data[record_id]`: remove the binding. -/
def bookDel : Book → Nat → Book
  | [], _ => []
  | (i, r') :: rest, rid => if i = rid then rest else (i, r') :: bookDel rest rid

/-- Replace the record stored under `rid` (the in-place mutation of a
record object reached through the dict). -/
def bookUpdate (b : Book) (rid : Nat) (r : Rec) : Book :=
  b.map fun p => if p.1 = rid then (p.1, r) else p

/-- `AddressBook.delete(record_id)`: remove the record if the id is
present, otherwise raise `KeyError`.  The store after the call is paired
with the exception, if any, as mutations before a Python raise persist. -/
def bookDelete (b : Book) (rid : Nat) : Book × Option PyErr :=
  if (bookGet b rid).isSome then (bookDel b rid, none)
  else (b, some .keyError)

/-- `AddressBook.find_by_name(name)`: scan the records in store order and
return the first whose `fields["name"].value` equals the probe.  A record
without a `"name"` binding makes the subscript raise `KeyError`; a
list-valued binding has no `.value` and raises `AttributeError`. -/
def findByName : Book → String → Except PyErr (Option Rec)
  | [], _ => .ok none
  | (_, r) :: rest, nm =>
      match dictGet r.fields "name" with
      | none => .error .keyError
      | some (.many _) => .error .attributeError
      | some (.one v) => if v = nm then .ok (some r) else findByName rest nm

/-! ## The note store

`entities.NotesBook` keeps a list of dicts with keys `id`, `title`,
`text`, `tags`.  Persistence (`save_notes`) is I/O glue outside the
model. -/

/-- One note entry. -/
structure Note where
  id : String
  title : String
  text : String
  tags : List String
deriving DecidableEq, Repr

/-- `NotesBook.edit_note(note_id, new_title, new_text)`: walk the list,
replace title and text of the first entry with the given id and stop;
raise `KeyError` when no entry matches. -/
def editNote : List Note → String → String → String → Except PyErr (List Note)
  | [], _, _, _ => .error .keyError
  | n :: rest, nid, t, x =>
      if n.id = nid then .ok ({ n with title := t, text := x } :: rest)
      else
        match editNote rest nid t x with
        | .ok rest' => .ok (n :: rest')
        | .error e => .error e

/-- The selection made by `NotesBook.find_notes_with_same_tags(tag)`:
the notes whose tag list contains `"#" + tag`. -/
def taggedNotes (notes : List Note) (tag : String) : List Note :=
  notes.filter fun n => n.tags.contains ("#" ++ tag)

/-- Observable behaviour of `NotesBook.find_notes_with_same_tags(tag)`:
the notes it prints, the value it returns (always `None` — the success
path prints and falls off the end), and the exception, if any
(`ValueError` when no note carries the tag). -/
def findNotesWithSameTags (notes : List Note) (tag : String) :
    List Note × Option (List Note) × Option PyErr :=
  let t := taggedNotes notes tag
  if t.isEmpty then ([], none, some .valueError) else (t, none, none)

/-! ## Command handlers (services.py / interfaces.py)

A handler's observable behaviour is the store it leaves behind and one
outcome: a reported message (`Message.error` / `Message.warning` /
`Message.info`, identified by template key) or a raised exception. -/

/-- The outcome a handler reports for one invocation. -/
inductive Outcome where
  | msgError (key : String)
  | msgWarning (key : String)
  | msgInfo (key : String)
  | raised (e : PyErr)
deriving DecidableEq, Repr

/-- `services.AddContactCommand.execute(*args)` with `freshId` standing
for the uuid a newly created record would receive.  The duplicate-name
branch follows the source statement by statement: the membership test
over `record.fields.get("phones", [])` (iterating a single `Field`
raises `TypeError`), then — for a missing or empty phone list — the
assignment `record.fields["phones"] = []`, and only then the validation
`Phone(phone)`, whose `ValueError` leaves that empty list behind. -/
def addContactExecute (freshId : Nat) (b : Book) (args : List String) :
    Book × Outcome :=
  match args with
  | [name, phone] =>
    match nameInit name with
    | .error e => (b, .raised e)
    | .ok nm =>
      match findByName b nm with
      | .error e => (b, .raised e)
      | .ok (some r) =>
        match
          (match dictGet r.fields "phones" with
           | none => Except.ok []
           | some (.many fs) => Except.ok fs
           | some (.one _) => Except.error PyErr.typeError) with
        | .error e => (b, .raised e)
        | .ok fs =>
          if fs.contains phone then (b, .msgWarning "contact_exists")
          else
            let falsy :=
              match dictGet r.fields "phones" with
              | none => true
              | some (.many []) => true
              | some (.many (_ :: _)) => false
              | some (.one _) => false
            let (r1, b1) :=
              if falsy then
                let r' := { r with fields := dictSet r.fields "phones" (.many []) }
                (r', bookUpdate b r.id r')
              else (r, b)
            match dictGet r1.fields "phones" with
            | none => (b1, .raised .keyError)
            | some (.one _) => (b1, .raised .attributeError)
            | some (.many fs1) =>
              match Phone.init phone with
              | .error e => (b1, .raised e)
              | .ok _ =>
                (bookUpdate b1 r.id
                  { r1 with fields := dictSet r1.fields "phones" (.many (fs1 ++ [phone])) },
                 .msgInfo "phone_added")
      | .ok none =>
        match Phone.init phone with
        | .error e => (b, .raised e)
        | .ok _ =>
          match (Rec.init freshId name).addPhone phone with
          | .error e => (b, .raised e)
          | .ok r' => (bookSet b freshId r', .msgInfo "contact_added")
  | _ => (b, .msgError "incorrect_arguments")

/-- `interfaces.FieldCommand.execute` specialised to `AddPhoneCommand`:
argument-count check, name validation, lookup, `create_field` (which is
`Phone(field_args[0])`), then `AddPhoneCommand.execute_field`.  In
`execute_field`, a missing `"phones"` key is first bound to an empty
list; a list-valued binding is scanned for a duplicate; a single-`Field`
binding falls through to `record.add_phone`, whose `.append` on a
`Field` raises `AttributeError`. -/
def addPhoneExecute (b : Book) (args : List String) : Book × Outcome :=
  if args.length < 2 then (b, .msgError "incorrect_arguments")
  else
    match args with
    | [] => (b, .msgError "incorrect_arguments")
    | name :: fieldArgs =>
      match nameInit name with
      | .error e => (b, .raised e)
      | .ok nm =>
        match findByName b nm with
        | .error e => (b, .raised e)
        | .ok none => (b, .msgError "contact_not_found")
        | .ok (some r) =>
          match fieldArgs with
          | [] => (b, .raised .indexError)
          | fa :: _ =>
            match Phone.init fa with
            | .error e => (b, .raised e)
            | .ok _ =>
              match dictGet r.fields "phones" with
              | none =>
                let r1 := { r with fields := dictSet r.fields "phones" (.many []) }
                match r1.addPhone fa with
                | .ok r2 => (bookUpdate b r.id r2, .msgInfo "phone_added")
                | .error e => (bookUpdate b r.id r1, .raised e)
              | some (.many fs) =>
                if fs.contains fa then (b, .msgError "contact_exists")
                else
                  match r.addPhone fa with
                  | .ok r2 => (bookUpdate b r.id r2, .msgInfo "phone_added")
                  | .error e => (b, .raised e)
              | some (.one _) => (b, .raised .attributeError)

/-- Index of the first occurrence, the model of `list.index` (which
raises `ValueError` when absent — reported here as `none`). -/
def listIndex? : List String → String → Option Nat
  | [], _ => none
  | a :: rest, x =>
      if a = x then some 0
      else match listIndex? rest x with
        | some i => some (i + 1)
        | none => none

/-- `services.ChangeContactCommand.execute` (`edit-phone`): look the old
phone up with `list.index` and overwrite that slot with the new one.
Both `Phone(old_phone)` and `Phone(new_phone)` raise `ValueError` on
malformed input and the surrounding `try` reports `phone_not_found` for
any `ValueError`; `Phone(new_phone)` is evaluated only after the index
lookup succeeds.  A single-`Field` `"phones"` binding has no `.index`
and raises `AttributeError`. -/
def changeContactExecute (b : Book) (args : List String) : Book × Outcome :=
  match args with
  | [name, oldP, newP] =>
    match nameInit name with
    | .error e => (b, .raised e)
    | .ok nm =>
      match findByName b nm with
      | .error e => (b, .raised e)
      | .ok none => (b, .msgError "contact_not_found")
      | .ok (some r) =>
        match dictGet r.fields "phones" with
        | none => (b, .msgError "contact_not_found")
        | some (.one _) => (b, .raised .attributeError)
        | some (.many fs) =>
          match Phone.init oldP with
          | .error _ => (b, .msgError "phone_not_found")
          | .ok _ =>
            match listIndex? fs oldP with
            | none => (b, .msgError "phone_not_found")
            | some i =>
              match Phone.init newP with
              | .error _ => (b, .msgError "phone_not_found")
              | .ok _ =>
                (bookUpdate b r.id
                  { r with fields := dictSet r.fields "phones" (.many (fs.set i newP)) },
                 .msgInfo "phone_updated")
  | _ => (b, .msgError "incorrect_arguments")

/-- `services.FindNoteCommand.execute` (`find-tag-note`): it iterates
over the value returned by `find_notes_with_same_tags`, which is always
`None` on the success path, so the `for` loop raises `TypeError`; the
`ValueError` of the no-match path propagates. -/
def findNoteCommandExecute (notes : List Note) (args : List String) : Outcome :=
  match args with
  | [tag] =>
    match findNotesWithSameTags notes tag with
    | (_, _, some e) => .raised e
    | (_, none, none) => .raised .typeError
    | (_, some _, none) => .msgInfo "printed"
  | _ => .msgError "incorrect_arguments"

/-! ## Dates

The birthday query uses `datetime.date`: value comparison, `replace`,
subtraction (difference in days), `weekday()` and `strftime`.  Dates are
modelled by a day-count (rata die) over the proleptic Gregorian
calendar; `weekday()` numbers Monday 0 through Sunday 6. -/

/-- Gregorian leap year, as `calendar.isleap`. -/
def isLeap (y : Nat) : Bool := y % 4 = 0 && (y % 100 ≠ 0 || y % 400 = 0)

/-- Number of days in a month. -/
def daysInMonth (y m : Nat) : Nat :=
  if m = 2 then (if isLeap y then 29 else 28)
  else if m = 4 ∨ m = 6 ∨ m = 9 ∨ m = 11 then 30
  else 31

/-- Days in year `y` before the first day of month `m`. -/
def daysBeforeMonth (y : Nat) : Nat → Nat
  | 0 => 0
  | 1 => 0
  | m + 2 => daysBeforeMonth y (m + 1) + daysInMonth y (m + 1)

/-- A `datetime.date` value. -/
structure Date where
  year : Nat
  month : Nat
  day : Nat
deriving DecidableEq, Repr

/-- The dates `datetime.date` can represent (year at least `MINYEAR`). -/
def ValidDate (d : Date) : Prop :=
  1 ≤ d.year ∧ 1 ≤ d.month ∧ d.month ≤ 12 ∧ 1 ≤ d.day ∧
    d.day ≤ daysInMonth d.year d.month

instance (d : Date) : Decidable (ValidDate d) := by
  unfold ValidDate; infer_instance

/-- Day number of a date (rata die: 0001-01-01 is day 1). -/
def rataDie (d : Date) : Int :=
  365 * ((d.year : Int) - 1) + ((d.year - 1) / 4 : Nat)
    - ((d.year - 1) / 100 : Nat) + ((d.year - 1) / 400 : Nat)
    + (daysBeforeMonth d.year d.month : Int) + (d.day : Int)

/-- `date.weekday()`: Monday is 0, Sunday is 6 (0001-01-01 was a
Monday in the proleptic Gregorian calendar). -/
def weekday (d : Date) : Nat := ((rataDie d + 6) % 7).toNat

/-- `date` comparison: lexicographic on (year, month, day). -/
def dateLt (a b : Date) : Bool :=
  a.year < b.year ||
    (a.year = b.year &&
      (a.month < b.month || (a.month = b.month && a.day < b.day)))

/-- `date.replace(year=y)`: keep month and day; raise `ValueError` when
the day does not exist in the target month/year (the Feb-29 rollover
case) or the year leaves the supported range. -/
def dateReplaceYear (d : Date) (y : Nat) : Except PyErr Date :=
  if 1 ≤ y ∧ y ≤ 9999 ∧ 1 ≤ d.month ∧ d.month ≤ 12 ∧ 1 ≤ d.day ∧
      d.day ≤ daysInMonth y d.month then
    .ok ⟨y, d.month, d.day⟩
  else .error .valueError

/-- The calendar successor of a date. -/
def succDate (d : Date) : Date :=
  if d.day < daysInMonth d.year d.month then ⟨d.year, d.month, d.day + 1⟩
  else if d.month < 12 then ⟨d.year, d.month + 1, 1⟩
  else ⟨d.year + 1, 1, 1⟩

/-- `date + timedelta(days=n)`. -/
def dateAddDays (d : Date) : Nat → Date
  | 0 => d
  | n + 1 => succDate (dateAddDays d n)

/-- Split a character list on `.` separators. -/
def splitDots : List Char → List (List Char)
  | [] => [[]]
  | c :: rest =>
      let r := splitDots rest
      if c = '.' then [] :: r
      else
        match r with
        | [] => [[c]]
        | h :: t => (c :: h) :: t

/-- Numeric value of a digit string. -/
def natOfDigits (l : List Char) : Nat :=
  l.foldl (fun a c => a * 10 + (c.toNat - 48)) 0

/-- `datetime.strptime(value, "%d.%m.%Y").date()`: three dot-separated
digit groups (`%d` and `%m` take one or two digits, `%Y` up to four),
checked against the calendar; any failure is a `ValueError`. -/
def strptimeDMY (s : String) : Except PyErr Date :=
  match splitDots s.data with
  | [ds, ms, ys] =>
      if ds ≠ [] ∧ ds.all isDigitCh ∧ ds.length ≤ 2 ∧
          ms ≠ [] ∧ ms.all isDigitCh ∧ ms.length ≤ 2 ∧
          ys ≠ [] ∧ ys.all isDigitCh ∧ ys.length ≤ 4 then
        let d := natOfDigits ds
        let m := natOfDigits ms
        let y := natOfDigits ys
        if ValidDate ⟨y, m, d⟩ then .ok ⟨y, m, d⟩ else .error .valueError
      else .error .valueError
  | _ => .error .valueError

/-- Zero-pad a numeral to two digits, as `strftime` `%d` / `%m`. -/
def pad2 (n : Nat) : String := if n < 10 then "0" ++ toString n else toString n

/-- Zero-pad a numeral to four digits, as `strftime` `%Y`. -/
def pad4 (n : Nat) : String :=
  if n < 10 then "000" ++ toString n
  else if n < 100 then "00" ++ toString n
  else if n < 1000 then "0" ++ toString n
  else toString n

/-- `congratulation_date.strftime("%d.%m.%Y")`. -/
def formatDMY (d : Date) : String :=
  pad2 d.day ++ "." ++ pad2 d.month ++ "." ++ pad4 d.year

/-- Sequential effectful map over a list, aborting at the first raised
exception — the shape of the `for` loop in `get_upcoming_birthdays`. -/
def mapExcept (f : α → Except PyErr β) : List α → Except PyErr (List β)
  | [] => .ok []
  | a :: l =>
      match f a with
      | .error e => .error e
      | .ok b =>
        match mapExcept f l with
        | .error e => .error e
        | .ok bs => .ok (b :: bs)

/-- The body of the `get_upcoming_birthdays` loop for one record:
`none` when the record contributes nothing, `some (name, date-string)`
when it is reported.  Mirrors entities.py lines 136-161: parse the
stored birthday, move it to the current year, roll to next year when it
has passed, keep it when the difference from today is in `[0, 7]`, and
shift a Saturday/Sunday to the following Monday. -/
def upcomingEntry (today : Date) (r : Rec) :
    Except PyErr (Option (String × String)) :=
  match dictGet r.fields "birthday" with
  | none => .ok none
  | some (.many _) => .error .attributeError
  | some (.one bdS) =>
    match strptimeDMY bdS with
    | .error e => .error e
    | .ok bd =>
      match dateReplaceYear bd today.year with
      | .error e => .error e
      | .ok b1 =>
        match
          (if dateLt b1 today then dateReplaceYear b1 (today.year + 1)
           else .ok b1) with
        | .error e => .error e
        | .ok bty =>
          let diff : Int := rataDie bty - rataDie today
          if 0 ≤ diff ∧ diff ≤ 7 then
            let congrats :=
              if 4 < weekday bty then dateAddDays bty (7 - weekday bty)
              else bty
            match dictGet r.fields "name" with
            | none => .error .keyError
            | some (.many _) => .error .attributeError
            | some (.one nm) => .ok (some (nm, formatDMY congrats))
          else .ok none

/-- `entities.AddressBook.get_upcoming_birthdays()`: the method takes no
window argument — the 7-day window is hardcoded — and returns the
name/congratulation-date pairs in store order.  `today` (in the source
`datetime.today().date()`) is passed explicitly. -/
def getUpcomingBirthdays (today : Date) (b : Book) :
    Except PyErr (List (String × String)) :=
  match mapExcept (upcomingEntry today) (b.map (·.2)) with
  | .error e => .error e
  | .ok es => .ok (es.filterMap id)

/-- `int(s)` restricted to plain digit strings, the only shape the
`birthdays` command receives. -/
def pyInt (s : String) : Except PyErr Int :=
  if s.data ≠ [] ∧ s.data.all isDigitCh then .ok (natOfDigits s.data)
  else .error .valueError

/-- `services.ShowUpcomingBirthdays.execute` (`birthdays`): after the
argument-count check and `int(args[0])`, it calls
`self.book_type.get_upcoming_birthdays(set_number)` — but the method on
`entities.AddressBook` accepts no positional argument, so the call
itself raises `TypeError` before any query runs. -/
def showUpcomingBirthdaysExecute (b : Book) (args : List String) :
    Book × Outcome :=
  match args with
  | [w] =>
    match pyInt w with
    | .error e => (b, .raised e)
    | .ok _ => (b, .raised .typeError)
  | _ => (b, .msgError "incorrect_arguments")

/-- The Record invariant of the spec: the fields dict binds `"name"` to
a single (non-list) value. -/
def NameSingle (r : Rec) : Prop :=
  ∃ n, dictGet r.fields "name" = some (.one n)

/-! ## Concrete stores used in the theorems below -/

/-- A store with one contact that has a birthday on January 6. -/
def bookBirthday : Book :=
  [(0, ⟨0, [("name", .one "Alice"), ("birthday", .one "06.01.1990")]⟩)]

/-- A store with one contact that has no phone list. -/
def bookNoPhones : Book := [(0, ⟨0, [("name", .one "Alice")]⟩)]

/-- The store obtained by `add Alice 1234567890`, then
`add-phone Alice 1234567891`, then `edit-phone Alice 1234567891
1234567890`: the edit leaves the phone `1234567890` twice. -/
def dupBook : Book :=
  (changeContactExecute
    (addPhoneExecute
      (addContactExecute 0 [] ["Alice", "1234567890"]).1
      ["Alice", "1234567891"]).1
    ["Alice", "1234567891", "1234567890"]).1

/-- A note carrying the tag `#errand`. -/
def noteErrand : Note := ⟨"id1", "Groceries", "buy milk", ["#errand"]⟩

/-! ## Dictionary lemmas -/

theorem dictGet_dictSet (d : Fields) (k k' : String) (v : FieldEntry) :
    dictGet (dictSet d k v) k' = if k = k' then some v else dictGet d k' := by
  induction d with
  | nil =>
    by_cases h : k = k' <;> simp [dictSet, dictGet, h]
  | cons p rest ih =>
    obtain ⟨k1, v1⟩ := p
    by_cases h1 : k1 = k
    · subst h1
      by_cases h2 : k1 = k' <;> simp [dictSet, dictGet, h2]
    · by_cases h2 : k1 = k'
      · subst h2
        have hne : ¬ k = k1 := fun hh => h1 hh.symm
        simp [dictSet, dictGet, h1, hne]
      · simp [dictSet, dictGet, h1, h2, ih]

theorem dictGet_dictDel_ne (d : Fields) (k k' : String) (h : k ≠ k') :
    dictGet (dictDel d k) k' = dictGet d k' := by
  induction d with
  | nil => rfl
  | cons p rest ih =>
    obtain ⟨k1, v1⟩ := p
    by_cases h1 : k1 = k
    · subst h1
      have hne : ¬ k1 = k' := h
      simp [dictDel, dictGet, hne]
    · simp [dictDel, dictGet, h1, ih]

theorem bookGet_eq_none_of_not_mem (b : Book) (rid : Nat)
    (h : rid ∉ b.map Prod.fst) : bookGet b rid = none := by
  induction b with
  | nil => rfl
  | cons p rest ih =>
    simp only [List.map_cons, List.mem_cons] at h
    push_neg at h
    have hne : ¬ p.1 = rid := fun hh => h.1 hh.symm
    simp [bookGet, hne, ih h.2]

theorem bookGet_bookDel_ne (b : Book) (rid rid2 : Nat) (h : rid2 ≠ rid) :
    bookGet (bookDel b rid) rid2 = bookGet b rid2 := by
  induction b with
  | nil => rfl
  | cons p rest ih =>
    by_cases h1 : p.1 = rid
    · have hne : ¬ p.1 = rid2 := by
        rw [h1]; exact fun hh => h hh.symm
      obtain ⟨i, r⟩ := p
      simp only at h1 hne
      subst h1
      simp [bookDel, bookGet, hne]
    · simp [bookDel, bookGet, h1, ih]

theorem bookGet_bookDel_self (b : Book) (rid : Nat)
    (hnd : (b.map Prod.fst).Nodup) : bookGet (bookDel b rid) rid = none := by
  induction b with
  | nil => rfl
  | cons p rest ih =>
    simp only [List.map_cons, List.nodup_cons] at hnd
    by_cases h1 : p.1 = rid
    · subst h1
      simp only [bookDel, if_pos rfl]
      exact bookGet_eq_none_of_not_mem rest p.1 hnd.1
    · simp [bookDel, bookGet, h1, ih hnd.2]

/-! ## Claim theorems -/

/-- C5: `AddressBook.delete(id)` raises `KeyError` and leaves the store
untouched when the id is absent; when the id is present it removes that
record and no other. -/
theorem addressBook_delete_spec (b : Book) (rid : Nat)
    (hnd : (b.map Prod.fst).Nodup) :
    (bookGet b rid = none → bookDelete b rid = (b, some PyErr.keyError)) ∧
    (∀ r, bookGet b rid = some r →
      (bookDelete b rid).2 = none ∧
      bookGet (bookDelete b rid).1 rid = none ∧
      ∀ rid2, rid2 ≠ rid →
        bookGet (bookDelete b rid).1 rid2 = bookGet b rid2) := by
  constructor
  · intro h
    simp [bookDelete, h]
  · intro r h
    have hs : (bookGet b rid).isSome := by simp [h]
    refine ⟨by simp [bookDelete, hs], ?_, ?_⟩
    · simp only [bookDelete, if_pos hs]
      exact bookGet_bookDel_self b rid hnd
    · intro rid2 hne
      simp only [bookDelete, if_pos hs]
      exact bookGet_bookDel_ne b rid rid2 hne

/-- Witness for C5 on a one-record store: deleting the absent id 1
reports `KeyError` and changes nothing; deleting the present id 0
removes the record and leaves lookups of other ids intact. -/
theorem addressBook_delete_spec_witness :
    bookDelete bookNoPhones 1 = (bookNoPhones, some PyErr.keyError) ∧
    ((bookDelete bookNoPhones 0).2 = none ∧
      bookGet (bookDelete bookNoPhones 0).1 0 = none ∧
      bookGet (bookDelete bookNoPhones 0).1 7 = bookGet bookNoPhones 7) := by
  refine ⟨(addressBook_delete_spec bookNoPhones 1 (by decide)).1 (by decide), ?_⟩
  have h := (addressBook_delete_spec bookNoPhones 0 (by decide)).2
    ⟨0, [("name", .one "Alice")]⟩ (by decide)
  exact ⟨h.1, h.2.1, h.2.2 7 (by decide)⟩

/-- C9: `NotesBook.edit_note` rewrites only the title and text of the
first entry with the given id; that entry keeps its id and tags, and
every entry before and after it is returned unchanged. -/
theorem editNote_edits_first_match (pre : List Note) (n : Note)
    (post : List Note) (nid t x : String)
    (hpre : ∀ m ∈ pre, m.id ≠ nid) (hn : n.id = nid) :
    editNote (pre ++ n :: post) nid t x =
      .ok (pre ++ { n with title := t, text := x } :: post) ∧
    ({ n with title := t, text := x } : Note).id = n.id ∧
    ({ n with title := t, text := x } : Note).tags = n.tags := by
  refine ⟨?_, rfl, rfl⟩
  induction pre with
  | nil => simp [editNote, hn]
  | cons m rest ih =>
    have hm : ¬ m.id = nid := hpre m (by simp)
    have ihh := ih fun m' hm' => hpre m' (by simp [hm'])
    simp [editNote, hm, ihh]

/-- Witness for C9: editing the second of two notes replaces its title
and text and leaves the first note and the tags alone. -/
theorem editNote_edits_first_match_witness :
    editNote [⟨"a", "t1", "x1", ["#p"]⟩, ⟨"b", "t2", "x2", ["#q"]⟩]
        "b" "nt" "nx" =
      .ok [⟨"a", "t1", "x1", ["#p"]⟩, ⟨"b", "nt", "nx", ["#q"]⟩] :=
  (editNote_edits_first_match [⟨"a", "t1", "x1", ["#p"]⟩]
    ⟨"b", "t2", "x2", ["#q"]⟩ [] "b" "nt" "nx" (by decide) rfl).1

/-- C7 counterexample: `Record.remove_field("name")` deletes the name
binding, so the fields dict of a freshly constructed record is left
empty — the `"name"` key is not preserved by every field-remove. -/
theorem record_name_invariant_counterexample :
    ((Rec.init 0 "Alice").removeField "name").fields = [] ∧
    dictGet ((Rec.init 0 "Alice").removeField "name").fields "name" = none := by
  constructor <;> rfl

/-- C7 (amended): the `"name"` binding stays present and single-valued
through construction, `add_field`, `edit_field`, `add_phone`, and
`remove_field` of any key other than `"name"` itself. -/
theorem record_name_invariant :
    (∀ id nm, NameSingle (Rec.init id nm)) ∧
    (∀ r k v, NameSingle r → NameSingle (r.addField k v)) ∧
    (∀ r k v, NameSingle r → NameSingle (r.editField k v)) ∧
    (∀ r k, k ≠ "name" → NameSingle r → NameSingle (r.removeField k)) ∧
    (∀ r p r', NameSingle r → r.addPhone p = .ok r' → NameSingle r') := by
  refine ⟨?_, ?_, ?_, ?_, ?_⟩
  · intro id nm
    exact ⟨nm, rfl⟩
  · intro r k v hNS
    obtain ⟨n, hn⟩ := hNS
    by_cases hk : k = "name"
    · subst hk
      exact ⟨v, by simp [Rec.addField, dictGet_dictSet]⟩
    · exact ⟨n, by simp [Rec.addField, dictGet_dictSet, hk, hn]⟩
  · intro r k v hNS
    obtain ⟨n, hn⟩ := hNS
    by_cases hp : (dictGet r.fields k).isSome
    · by_cases hk : k = "name"
      · subst hk
        exact ⟨v, by simp [Rec.editField, hp, dictGet_dictSet]⟩
      · exact ⟨n, by simp [Rec.editField, hp, dictGet_dictSet, hk, hn]⟩
    · exact ⟨n, by simp [Rec.editField, hp, hn]⟩
  · intro r k hk hNS
    obtain ⟨n, hn⟩ := hNS
    by_cases hp : (dictGet r.fields k).isSome
    · refine ⟨n, ?_⟩
      simp only [Rec.removeField, if_pos hp]
      rw [dictGet_dictDel_ne r.fields k "name" hk]
      exact hn
    · exact ⟨n, by simp [Rec.removeField, hp, hn]⟩
  · intro r p r' hNS hok
    obtain ⟨n, hn⟩ := hNS
    by_cases hph : dictGet r.fields "phones" = none
    · have hexp : dictGet (dictSet r.fields "phones" (FieldEntry.many []))
          "phones" = some (.many []) := by
        rw [dictGet_dictSet]; simp
      simp [Rec.addPhone, hph, hexp] at hok
      refine ⟨n, ?_⟩
      rw [← hok]
      simp [dictGet_dictSet, hn]
    · simp only [Rec.addPhone, if_neg hph] at hok
      cases hg : dictGet r.fields "phones" with
      | none => exact absurd hg hph
      | some fe =>
        cases fe with
        | one v => rw [hg] at hok; cases hok
        | many fs =>
          rw [hg] at hok
          injection hok with hr'
          refine ⟨n, ?_⟩
          rw [← hr']
          simp [dictGet_dictSet, hn]

/-- Witness for C7: the preservation clauses applied to a concrete
record — after removing `"phones"` and adding a phone, the `"name"`
binding is still a single value. -/
theorem record_name_invariant_witness :
    NameSingle ((Rec.init 0 "Alice").removeField "phones") ∧
    ∀ r', (Rec.init 0 "Alice").addPhone "1234567890" = .ok r' →
      NameSingle r' := by
  constructor
  · exact record_name_invariant.2.2.2.1 (Rec.init 0 "Alice") "phones"
      (by decide) ⟨"Alice", rfl⟩
  · intro r' h
    exact record_name_invariant.2.2.2.2 (Rec.init 0 "Alice") "1234567890" r'
      ⟨"Alice", rfl⟩ h

/-- C6: on a store holding a note tagged `#errand`, the tag query
selects (and prints) exactly that note but returns `None`, so the
`find-tag-note` command's iteration over the result raises `TypeError`;
with no matching note the query raises `ValueError`. -/
theorem findTagNote_returns_none :
    taggedNotes [noteErrand] "errand" = [noteErrand] ∧
    findNotesWithSameTags [noteErrand] "errand" = ([noteErrand], none, none) ∧
    findNoteCommandExecute [noteErrand] ["errand"] = .raised .typeError ∧
    findNotesWithSameTags [noteErrand] "x" = ([], none, some .valueError) := by
  refine ⟨rfl, rfl, rfl, rfl⟩

/-- C1: `birthdays 3` raises `TypeError` — the handler passes the window
to `get_upcoming_birthdays`, which takes no such parameter — and the
underlying query itself uses the hardcoded `[0, 7]` window: on
2024-01-01 it reports a birthday five days away, which a 3-day window
would exclude. -/
theorem birthdays_window_not_parameterized :
    showUpcomingBirthdaysExecute bookBirthday ["3"] =
      (bookBirthday, .raised .typeError) ∧
    getUpcomingBirthdays ⟨2024, 1, 1⟩ bookBirthday =
      .ok [("Alice", "08.01.2024")] ∧
    rataDie ⟨2024, 1, 6⟩ - rataDie ⟨2024, 1, 1⟩ = 5 := by
  refine ⟨rfl, rfl, by decide⟩

/-- C4 counterexample: `add Alice 12` against a store whose contact
`Alice` has no phone list aborts with the phone's `ValueError`, yet the
aborted handler leaves a freshly created empty `"phones"` list on the
record — the store is mutated by a failing invocation. -/
theorem addContact_partial_mutation_counterexample :
    (addContactExecute 1 bookNoPhones ["Alice", "12"]).2 =
      .raised .valueError ∧
    (addContactExecute 1 bookNoPhones ["Alice", "12"]).1 =
      [(0, ⟨0, [("name", .one "Alice"), ("phones", .many [])]⟩)] ∧
    (addContactExecute 1 bookNoPhones ["Alice", "12"]).1 ≠ bookNoPhones := by
  refine ⟨rfl, rfl, by decide⟩

/-- C4 (amended): every abort path leaves the store untouched — wrong
argument count for `add` and for the `FieldCommand` handlers, a phone
validation failure in `add-phone` (where `create_field` runs before any
mutation), a missing contact, a phone validation failure on the
new-contact branch of `add`, and a name-validation failure
(`Name("")` raising before any lookup) in either handler — except the
duplicate-name branch of `add`, which creates an empty phone list
before validating (the counterexample above). -/
theorem handlers_abort_without_mutation :
    (∀ fid b (args : List String), args.length ≠ 2 →
      addContactExecute fid b args = (b, .msgError "incorrect_arguments")) ∧
    (∀ b (args : List String), args.length < 2 →
      addPhoneExecute b args = (b, .msgError "incorrect_arguments")) ∧
    (∀ b name fa rest r e, name ≠ "" → findByName b name = .ok (some r) →
      Phone.init fa = .error e →
      addPhoneExecute b (name :: fa :: rest) = (b, .raised e)) ∧
    (∀ b name fa rest, name ≠ "" → findByName b name = .ok none →
      addPhoneExecute b (name :: fa :: rest) =
        (b, .msgError "contact_not_found")) ∧
    (∀ fid b name phone e, name ≠ "" → findByName b name = .ok none →
      Phone.init phone = .error e →
      addContactExecute fid b [name, phone] = (b, .raised e)) ∧
    (∀ b name fa rest e, nameInit name = .error e →
      addPhoneExecute b (name :: fa :: rest) = (b, .raised e)) ∧
    (∀ fid b name phone e, nameInit name = .error e →
      addContactExecute fid b [name, phone] = (b, .raised e)) := by
  refine ⟨?_, ?_, ?_, ?_, ?_, ?_, ?_⟩
  · intro fid b args h
    rcases args with _ | ⟨a, _ | ⟨c, _ | ⟨d, t⟩⟩⟩
    · rfl
    · rfl
    · simp at h
    · rfl
  · intro b args h
    rcases args with _ | ⟨a, _ | ⟨c, t⟩⟩
    · rfl
    · rfl
    · simp at h
      omega
  · intro b name fa rest r e hname hfind hphone
    simp [addPhoneExecute, nameInit, hname, hfind, hphone]
  · intro b name fa rest hname hfind
    simp [addPhoneExecute, nameInit, hname, hfind]
  · intro fid b name phone e hname hfind hphone
    simp [addContactExecute, nameInit, hname, hfind, hphone]
  · intro b name fa rest e hname
    simp [addPhoneExecute, hname]
  · intro fid b name phone e hname
    simp [addContactExecute, hname]

/-- Witness for C4: each untouched abort path evaluated at a concrete
store and argument list. -/
theorem handlers_abort_without_mutation_witness :
    addContactExecute 1 bookNoPhones ["Alice"] =
      (bookNoPhones, .msgError "incorrect_arguments") ∧
    addPhoneExecute bookNoPhones ["Alice"] =
      (bookNoPhones, .msgError "incorrect_arguments") ∧
    addPhoneExecute bookBirthday ["Alice", "12"] =
      (bookBirthday, .raised .valueError) ∧
    addPhoneExecute bookNoPhones ["Bob", "1234567890"] =
      (bookNoPhones, .msgError "contact_not_found") ∧
    addContactExecute 1 [] ["Alice", "12"] = ([], .raised .valueError) ∧
    addPhoneExecute bookNoPhones ["", "1234567890"] =
      (bookNoPhones, .raised .valueError) ∧
    addContactExecute 1 bookNoPhones ["", "1234567890"] =
      (bookNoPhones, .raised .valueError) := by
  refine ⟨handlers_abort_without_mutation.1 1 bookNoPhones ["Alice"] (by decide),
    handlers_abort_without_mutation.2.1 bookNoPhones ["Alice"] (by decide),
    handlers_abort_without_mutation.2.2.1 bookBirthday "Alice" "12" []
      ⟨0, [("name", .one "Alice"), ("birthday", .one "06.01.1990")]⟩
      .valueError (by decide) rfl rfl,
    handlers_abort_without_mutation.2.2.2.1 bookNoPhones "Bob" "1234567890" []
      (by decide) rfl,
    handlers_abort_without_mutation.2.2.2.2.1 1 [] "Alice" "12" .valueError
      (by decide) rfl rfl,
    handlers_abort_without_mutation.2.2.2.2.2.1 bookNoPhones "" "1234567890" []
      .valueError rfl,
    handlers_abort_without_mutation.2.2.2.2.2.2 1 bookNoPhones "" "1234567890"
      .valueError rfl⟩

/-- C8 counterexample: after `add`, `add-phone` and an `edit-phone` that
writes an already-present number, the contact reachably holds the phone
`1234567890` twice; re-adding it is rejected with the duplicate message
and no mutation, but two entries with that value remain — not exactly
one. -/
theorem duplicate_phone_exactly_one_counterexample :
    (addPhoneExecute dupBook ["Alice", "1234567890"]).2 =
      .msgError "contact_exists" ∧
    bookGet (addPhoneExecute dupBook ["Alice", "1234567890"]).1 0 =
      some ⟨0, [("name", .one "Alice"),
                ("phones", .many ["1234567890", "1234567890"])]⟩ ∧
    (["1234567890", "1234567890"].count "1234567890") = 2 := by
  refine ⟨rfl, rfl, rfl⟩

/-- C8 (amended): adding a phone already on the contact is rejected by
both phone-adding handlers with a duplicate report and no mutation of
the store, so the number of entries holding that value is unchanged (in
particular a single entry stays single; a contact that reached a
duplicated phone list via `edit-phone` keeps both copies). -/
theorem duplicate_phone_add_rejected (fid : Nat) (b : Book)
    (name phone : String) (r : Rec) (fs : List String)
    (hname : name ≠ "") (hfind : findByName b name = .ok (some r))
    (hph : dictGet r.fields "phones" = some (.many fs))
    (hmem : fs.contains phone = true)
    (hv : phoneFullmatch phone.data = true) :
    addPhoneExecute b [name, phone] = (b, .msgError "contact_exists") ∧
    addContactExecute fid b [name, phone] =
      (b, .msgWarning "contact_exists") := by
  have hmem' : phone ∈ fs := by simpa using hmem
  constructor
  · simp [addPhoneExecute, nameInit, hname, hfind, Phone.init, hv, hph, hmem']
  · simp [addContactExecute, nameInit, hname, hfind, hph, hmem']

/-- Witness for C8 on the reachable duplicated store: both handlers
reject the re-add and leave the store as it was. -/
theorem duplicate_phone_add_rejected_witness :
    addPhoneExecute dupBook ["Alice", "1234567890"] =
      (dupBook, .msgError "contact_exists") ∧
    addContactExecute 5 dupBook ["Alice", "1234567890"] =
      (dupBook, .msgWarning "contact_exists") :=
  duplicate_phone_add_rejected 5 dupBook "Alice" "1234567890"
    ⟨0, [("name", .one "Alice"),
         ("phones", .many ["1234567890", "1234567890"])]⟩
    ["1234567890", "1234567890"] (by decide) rfl rfl (by decide) (by decide)

/-! ## The phone pattern: operational matcher vs. declarative language -/

theorem phoneBody_iff (l : List Char) : phoneBody l = true ↔ PhoneDigits l := by
  constructor
  · intro h
    cases l with
    | nil => simp [phoneBody] at h
    | cons c rest =>
      simp only [phoneBody, Bool.and_eq_true, decide_eq_true_eq] at h
      refine ⟨c, rest, rfl, h.1.1.1, ?_, ?_, ?_⟩
      · intro x hx
        exact List.all_eq_true.mp h.1.1.2 x hx
      · simp only [List.length_cons]
        omega
      · simp only [List.length_cons]
        omega
  · rintro ⟨d, t, rfl, hd, ht, hlen1, hlen2⟩
    simp only [List.length_cons] at hlen1 hlen2
    simp only [phoneBody, Bool.and_eq_true, decide_eq_true_eq]
    exact ⟨⟨⟨hd, List.all_eq_true.mpr ht⟩, by omega⟩, by omega⟩

theorem phoneAnchored_iff (l : List Char) :
    phoneAnchored l = true ↔
      ∃ core suf, l = core ++ suf ∧ PhoneDigits core ∧
        (suf = [] ∨ suf = ['\n']) := by
  constructor
  · intro h
    simp only [phoneAnchored, Bool.or_eq_true] at h
    rcases h with h | h
    · exact ⟨l, [], by simp, (phoneBody_iff l).mp h, Or.inl rfl⟩
    · cases hg : l.getLast? with
      | none => rw [hg] at h; simp at h
      | some c =>
        rw [hg] at h
        simp only [Bool.and_eq_true, decide_eq_true_eq] at h
        obtain ⟨hc, hb⟩ := h
        subst hc
        have hne : l ≠ [] := by
          intro hnil
          rw [hnil] at hg
          simp at hg
        have hlast : l.getLast hne = '\n' := by
          rw [List.getLast?_eq_getLast l hne] at hg
          exact Option.some.inj hg
        have hdecomp : l.dropLast ++ ['\n'] = l := by
          rw [← hlast]
          exact List.dropLast_append_getLast hne
        exact ⟨l.dropLast, ['\n'], hdecomp.symm,
          (phoneBody_iff l.dropLast).mp hb, Or.inr rfl⟩
  · rintro ⟨core, suf, rfl, hcore, hsuf | hsuf⟩
    · subst hsuf
      simp only [phoneAnchored, Bool.or_eq_true]
      exact Or.inl (by simpa using (phoneBody_iff core).mpr hcore)
    · subst hsuf
      simp only [phoneAnchored, Bool.or_eq_true]
      refine Or.inr ?_
      rw [List.getLast?_concat, List.dropLast_concat]
      simp [(phoneBody_iff core).mpr hcore]

theorem phoneDigits_head_nonzero (l : List Char) (h : PhoneDigits l) :
    ∃ d t, l = d :: t ∧ isNonzeroDigit d = true := by
  obtain ⟨d, t, rfl, hd, -⟩ := h
  exact ⟨d, t, rfl, hd⟩

theorem phoneFullmatch_iff (s : String) :
    phoneFullmatch s.data = true ↔ PhoneMatches s := by
  unfold PhoneMatches
  cases hd : s.data with
  | nil =>
    constructor
    · intro h
      simp [phoneFullmatch, phoneAnchored, phoneBody] at h
    · rintro ⟨pre, core, suf, habs, -, hcore, -⟩
      obtain ⟨d, t, rfl, -⟩ := phoneDigits_head_nonzero core hcore
      simp at habs
  | cons c rest =>
    by_cases hc : c = '+'
    · subst hc
      constructor
      · intro h
        have h' : phoneAnchored rest = true := by
          simpa [phoneFullmatch] using h
        obtain ⟨core, suf, hr, hcore, hsuf⟩ := (phoneAnchored_iff rest).mp h'
        exact ⟨['+'], core, suf, by simp [hr], Or.inr rfl, hcore, hsuf⟩
      · rintro ⟨pre, core, suf, habs, hpre | hpre, hcore, hsuf⟩
        · subst hpre
          obtain ⟨d, t, hdt, hzd⟩ := phoneDigits_head_nonzero core hcore
          subst hdt
          simp only [List.nil_append, List.cons_append, List.cons.injEq] at habs
          obtain ⟨h1, -⟩ := habs
          cases h1
          exact absurd hzd (by decide)
        · subst hpre
          simp only [List.cons_append, List.nil_append, List.cons.injEq,
            true_and] at habs
          have : phoneAnchored rest = true :=
            (phoneAnchored_iff rest).mpr ⟨core, suf, habs, hcore, hsuf⟩
          simpa [phoneFullmatch] using this
    · constructor
      · intro h
        have h' : phoneAnchored (c :: rest) = true := by
          simpa [phoneFullmatch, hc] using h
        obtain ⟨core, suf, hr, hcore, hsuf⟩ :=
          (phoneAnchored_iff (c :: rest)).mp h'
        exact ⟨[], core, suf, by simp [hr], Or.inl rfl, hcore, hsuf⟩
      · rintro ⟨pre, core, suf, habs, hpre | hpre, hcore, hsuf⟩
        · subst hpre
          simp only [List.nil_append] at habs
          have : phoneAnchored (c :: rest) = true :=
            (phoneAnchored_iff (c :: rest)).mpr ⟨core, suf, habs, hcore, hsuf⟩
          simpa [phoneFullmatch, hc] using this
        · subst hpre
          simp only [List.cons_append, List.nil_append, List.cons.injEq] at habs
          exact absurd habs.1 hc

/-- C2: `entities.Phone` accepts precisely the strings of the pattern
`^\+?[1-9]\d{9,14}$` (as Python's `re.match` reads it, including the
optional trailing newline admitted by `$`), stores the accepted string
unchanged, and rejects every other string with `ValueError` (the
`ValidationError` of the spec). -/
theorem phone_validator_spec (s : String) :
    (Phone.init s = .ok ⟨s⟩ ↔ PhoneMatches s) ∧
    (Phone.init s = .error .valueError ↔ ¬ PhoneMatches s) := by
  have h := phoneFullmatch_iff s
  by_cases hf : phoneFullmatch s.data = true
  · constructor
    · simp [Phone.init, hf, h.mp hf]
    · simp [Phone.init, hf, h.mp hf]
  · have hnm : ¬ PhoneMatches s := fun hm => hf (h.mpr hm)
    constructor
    · simp [Phone.init, hf, hnm]
    · simp [Phone.init, hf, hnm]

/-- Witness for C2: a ten-digit number is accepted and stored verbatim;
a two-digit string is rejected with `ValueError`. -/
theorem phone_validator_spec_witness :
    Phone.init "1234567890" = .ok ⟨"1234567890"⟩ ∧
    Phone.init "12" = .error .valueError := by
  constructor
  · refine (phone_validator_spec "1234567890").1.mpr
      ⟨[], "1234567890".data, [], by decide, Or.inl rfl, ?_, Or.inl rfl⟩
    exact ⟨'1', "234567890".data, by decide, by decide, by decide,
      by decide, by decide⟩
  · refine (phone_validator_spec "12").2.mpr ?_
    intro hm
    have := (phoneFullmatch_iff "12").mpr hm
    simp [phoneFullmatch, phoneAnchored, phoneBody] at this

/-! ## The legacy phone validator -/

theorem not_pySpace_of_digit (c : Char) (h : isDigitCh c = true) :
    isPySpace c = false := by
  have h1 : c ≠ ' ' := fun hc => by subst hc; exact absurd h (by decide)
  have h2 : c ≠ '\t' := fun hc => by subst hc; exact absurd h (by decide)
  have h3 : c ≠ '\n' := fun hc => by subst hc; exact absurd h (by decide)
  have h4 : c ≠ '\r' := fun hc => by subst hc; exact absurd h (by decide)
  have h5 : c ≠ '\x0b' := fun hc => by subst hc; exact absurd h (by decide)
  have h6 : c ≠ '\x0c' := fun hc => by subst hc; exact absurd h (by decide)
  simp [isPySpace, h1, h2, h3, h4, h5, h6]

theorem pyStrip_of_digits (l : List Char) (h : l.all isDigitCh = true) :
    pyStrip l = l := by
  have hdrop : ∀ (m : List Char), m.all isDigitCh = true →
      m.dropWhile isPySpace = m := by
    intro m hm
    cases m with
    | nil => rfl
    | cons c rest =>
      have hc : isDigitCh c = true := by
        simp [List.all_cons] at hm
        exact hm.1
      simp [List.dropWhile_cons, not_pySpace_of_digit c hc]
  have hrev : l.reverse.all isDigitCh = true := by
    simpa using h
  unfold pyStrip
  rw [hdrop l h, hdrop l.reverse hrev, List.reverse_reverse]

/-- C10: the legacy `assistant_bot.Phone` accepts exactly the all-digit
strings of length 10 (storing them unchanged) and raises `ValueError`
otherwise; in particular every string the CAPythonsBook validator
accepts that has a leading `+` or at least 11 characters is rejected by
the legacy validator. -/
theorem legacy_phone_spec (s : String) :
    (LegacyPhone.init s = .ok ⟨s⟩ ↔
      s.data.all isDigitCh = true ∧ s.data.length = 10) ∧
    (PhoneMatches s → (s.data.head? = some '+' ∨ 11 ≤ s.data.length) →
      LegacyPhone.init s = .error .valueError) := by
  constructor
  · constructor
    · intro hok
      unfold LegacyPhone.init at hok
      by_cases hcond : !pyIsDigitStr s.data || (pyStrip s.data).length ≠ 10
      · rw [if_pos hcond] at hok
        cases hok
      · simp only [Bool.or_eq_true, Bool.not_eq_true', decide_eq_true_eq,
          not_or, Bool.not_eq_false] at hcond
        push_neg at hcond
        obtain ⟨hdig, hlen⟩ := hcond
        have hall : s.data.all isDigitCh = true := by
          simp only [pyIsDigitStr, Bool.and_eq_true] at hdig
          exact hdig.2
        refine ⟨hall, ?_⟩
        rw [pyStrip_of_digits s.data hall] at hlen
        exact hlen
    · rintro ⟨hall, hlen⟩
      have hne : ¬ s.data.isEmpty := by
        cases hl : s.data with
        | nil => rw [hl] at hlen; simp at hlen
        | cons c rest => simp [hl]
      have hdig : pyIsDigitStr s.data = true := by
        simp [pyIsDigitStr, hne, hall]
      unfold LegacyPhone.init
      rw [pyStrip_of_digits s.data hall]
      simp [hdig, hlen]
  · intro hm hcase
    unfold LegacyPhone.init
    rcases hcase with hplus | hlong
    · have hdig : pyIsDigitStr s.data = false := by
        cases hl : s.data with
        | nil => rw [hl] at hplus; simp at hplus
        | cons c rest =>
          rw [hl] at hplus
          simp only [List.head?_cons, Option.some.injEq] at hplus
          subst hplus
          simp [pyIsDigitStr, List.all_cons, isDigitCh]
      simp [hdig]
    · by_cases hdig : pyIsDigitStr s.data = true
      · have hall : s.data.all isDigitCh = true := by
          simp only [pyIsDigitStr, Bool.and_eq_true] at hdig
          exact hdig.2
        rw [pyStrip_of_digits s.data hall]
        have hld : s.data.length ≠ 10 := by omega
        have hls : ¬ s.length = 10 := by
          have heq : s.length = s.data.length := rfl
          omega
        simp [hdig, hld, hls]
      · simp only [Bool.not_eq_true] at hdig
        simp [hdig]

/-- Witness for C10: `1234567890` is accepted by the legacy validator;
`+12345678901`, accepted by the CAPythonsBook validator, is rejected. -/
theorem legacy_phone_spec_witness :
    LegacyPhone.init "1234567890" = .ok ⟨"1234567890"⟩ ∧
    LegacyPhone.init "+12345678901" = .error .valueError := by
  constructor
  · exact (legacy_phone_spec "1234567890").1.mpr (by decide)
  · refine (legacy_phone_spec "+12345678901").2
      ⟨['+'], "12345678901".data, [], by decide, Or.inr rfl, ?_, Or.inl rfl⟩
      (Or.inl (by decide))
    exact ⟨'1', "2345678901".data, by decide, by decide, by decide,
      by decide, by decide⟩

/-! ## Calendar arithmetic -/

theorem daysInMonth_pos (y m : Nat) : 1 ≤ daysInMonth y m := by
  unfold daysInMonth
  split
  · split <;> omega
  · split <;> omega

theorem daysBeforeMonth_succ (y m : Nat) (h : 1 ≤ m) :
    daysBeforeMonth y (m + 1) = daysBeforeMonth y m + daysInMonth y m := by
  cases m with
  | zero => omega
  | succ k => rfl

theorem validDate_succ (d : Date) (hv : ValidDate d) :
    ValidDate (succDate d) := by
  obtain ⟨hy, hm1, hm2, hd1, hd2⟩ := hv
  unfold succDate
  split
  · refine ⟨hy, hm1, hm2, ?_, ?_⟩
    · show 1 ≤ d.day + 1
      omega
    · show d.day + 1 ≤ daysInMonth d.year d.month
      omega
  · split
    · refine ⟨hy, ?_, ?_, ?_, ?_⟩
      · show 1 ≤ d.month + 1
        omega
      · show d.month + 1 ≤ 12
        omega
      · show 1 ≤ (1 : Nat)
        omega
      · show 1 ≤ daysInMonth d.year (d.month + 1)
        exact daysInMonth_pos _ _
    · refine ⟨?_, ?_, ?_, ?_, ?_⟩
      · show 1 ≤ d.year + 1
        omega
      · show 1 ≤ (1 : Nat)
        omega
      · show (1 : Nat) ≤ 12
        omega
      · show 1 ≤ (1 : Nat)
        omega
      · show 1 ≤ daysInMonth (d.year + 1) 1
        exact daysInMonth_pos _ _

theorem daysBeforeMonth_12 (y : Nat) :
    daysBeforeMonth y 12 = 306 + daysInMonth y 2 := by
  show daysBeforeMonth y 11 + daysInMonth y 11 = _
  cases h : isLeap y <;>
    simp [daysBeforeMonth, daysInMonth, h]

theorem daysInMonth_feb (y : Nat) :
    daysInMonth y 2 = if isLeap y then 29 else 28 := rfl

theorem isLeap_iff (y : Nat) :
    isLeap y = true ↔ (y % 4 = 0 ∧ (y % 100 ≠ 0 ∨ y % 400 = 0)) := by
  unfold isLeap
  simp [Bool.and_eq_true, Bool.or_eq_true, Bool.not_eq_true',
    decide_eq_true_eq, decide_eq_false_iff_not]

theorem rataDie_year_step (y : Nat) (hy : 1 ≤ y) :
    rataDie ⟨y + 1, 1, 1⟩ = rataDie ⟨y, 12, 31⟩ + 1 := by
  unfold rataDie
  dsimp only
  have hdbm1 : daysBeforeMonth (y + 1) 1 = 0 := rfl
  rw [hdbm1, daysBeforeMonth_12 y, daysInMonth_feb y]
  have hy1 : y + 1 - 1 = y := by omega
  rw [hy1]
  by_cases hc : y % 4 = 0 ∧ (y % 100 ≠ 0 ∨ y % 400 = 0)
  · rw [if_pos ((isLeap_iff y).mpr hc)]
    push_cast
    omega
  · rw [if_neg (fun hl => hc ((isLeap_iff y).mp hl))]
    push_cast
    omega

theorem rataDie_succ (d : Date) (hv : ValidDate d) :
    rataDie (succDate d) = rataDie d + 1 := by
  obtain ⟨hy, hm1, hm2, hd1, hd2⟩ := hv
  unfold succDate
  split
  · unfold rataDie
    dsimp only
    push_cast
    ring
  · rename_i hday
    split
    · have hdeq : d.day = daysInMonth d.year d.month := by omega
      unfold rataDie
      dsimp only
      rw [daysBeforeMonth_succ d.year d.month hm1, hdeq]
      push_cast
      ring
    · rename_i hmon
      have hm12 : d.month = 12 := by omega
      have hdim : daysInMonth d.year 12 = 31 := rfl
      have hd31 : d.day = 31 := by
        rw [hm12] at hd2 hday
        rw [hdim] at hd2 hday
        omega
      have hde : d = ⟨d.year, 12, 31⟩ := by
        obtain ⟨dy, dm, dd⟩ := d
        simp only at hm12 hd31
        rw [hm12, hd31]
      conv_rhs => rw [hde]
      exact rataDie_year_step d.year hy

theorem rataDie_addDays (d : Date) (hv : ValidDate d) (n : Nat) :
    rataDie (dateAddDays d n) = rataDie d + n ∧
      ValidDate (dateAddDays d n) := by
  induction n with
  | zero => exact ⟨by simp [dateAddDays], hv⟩
  | succ k ih =>
    constructor
    · show rataDie (succDate (dateAddDays d k)) = _
      rw [rataDie_succ (dateAddDays d k) ih.2, ih.1]
      push_cast
      ring
    · exact validDate_succ (dateAddDays d k) ih.2

theorem strptimeDMY_valid (s : String) (d : Date)
    (h : strptimeDMY s = .ok d) : ValidDate d := by
  unfold strptimeDMY at h
  split at h
  · split at h
    · dsimp only at h
      split at h
      · rename_i hv
        injection h with h'
        subst h'
        exact hv
      · cases h
    · cases h
  · cases h

theorem dateReplaceYear_valid (d : Date) (y : Nat) (d' : Date)
    (h : dateReplaceYear d y = .ok d') : ValidDate d' := by
  unfold dateReplaceYear at h
  split at h
  · rename_i hc
    injection h with h'
    subst h'
    exact ⟨hc.1, hc.2.2.1, hc.2.2.2.1, hc.2.2.2.2.1, hc.2.2.2.2.2⟩
  · cases h

theorem weekday_lt (d : Date) : weekday d < 7 := by
  unfold weekday
  have h1 : 0 ≤ (rataDie d + 6) % 7 := Int.emod_nonneg _ (by norm_num)
  have h2 : (rataDie d + 6) % 7 < 7 := Int.emod_lt_of_pos _ (by norm_num)
  omega

theorem weekday_int (d : Date) :
    (rataDie d + 6) % 7 = (weekday d : Int) := by
  unfold weekday
  rw [Int.toNat_of_nonneg (Int.emod_nonneg _ (by norm_num))]

theorem mapExcept_ok_mem {α β : Type} (f : α → Except PyErr β) :
    ∀ (l : List α) (out : List β), mapExcept f l = .ok out →
      ∀ a ∈ l, ∃ b ∈ out, f a = .ok b := by
  intro l
  induction l with
  | nil =>
    intro out h a ha
    simp at ha
  | cons x xs ih =>
    intro out h a ha
    unfold mapExcept at h
    cases hf : f x with
    | error e => rw [hf] at h; cases h
    | ok b =>
      rw [hf] at h
      cases hm : mapExcept f xs with
      | error e => rw [hm] at h; cases h
      | ok bs =>
        rw [hm] at h
        injection h with h'
        subst h'
        rcases List.mem_cons.mp ha with rfl | ha'
        · exact ⟨b, by simp, hf⟩
        · obtain ⟨b', hb', hfb⟩ := ih bs hm a ha'
          exact ⟨b', by simp [hb'], hfb⟩

/-- C3: a record whose rolled-forward birthday occurrence `bty` falls
within the hardcoded window contributes an entry to the query output;
its congratulation date is `bty` itself when `bty` is a weekday
(Monday 0 … Friday 4), and otherwise the first Monday strictly after
`bty` — a Monday, later than `bty`, with no Monday in between. -/
theorem birthday_weekend_shift
    (today : Date) (b : Book) (out : List (String × String)) (r : Rec)
    (nm bdS : String) (bd b1 bty : Date)
    (hq : getUpcomingBirthdays today b = .ok out)
    (hr : r ∈ b.map (·.2))
    (hnm : dictGet r.fields "name" = some (.one nm))
    (hbd : dictGet r.fields "birthday" = some (.one bdS))
    (hp : strptimeDMY bdS = .ok bd)
    (h1 : dateReplaceYear bd today.year = .ok b1)
    (h2 : (if dateLt b1 today then dateReplaceYear b1 (today.year + 1)
           else .ok b1) = .ok bty)
    (hwin : 0 ≤ rataDie bty - rataDie today ∧
      rataDie bty - rataDie today ≤ 7) :
    ∃ c, (nm, formatDMY c) ∈ out ∧
      (weekday bty ≤ 4 → c = bty) ∧
      (4 < weekday bty →
        weekday c = 0 ∧ rataDie bty < rataDie c ∧
        ∀ k : Int, rataDie bty < k → k < rataDie c → (k + 6) % 7 ≠ 0) := by
  have hvb : ValidDate bty := by
    by_cases hlt : dateLt b1 today
    · rw [if_pos hlt] at h2
      exact dateReplaceYear_valid b1 (today.year + 1) bty h2
    · rw [if_neg hlt] at h2
      injection h2 with h2'
      subst h2'
      exact dateReplaceYear_valid bd today.year b1 h1
  have hentry : upcomingEntry today r =
      .ok (some (nm, formatDMY
        (if 4 < weekday bty then dateAddDays bty (7 - weekday bty)
         else bty))) := by
    unfold upcomingEntry
    rw [hbd]
    simp only [hp, h1, h2]
    rw [if_pos hwin, hnm]
  obtain ⟨es, hme, hout⟩ :
      ∃ es, mapExcept (upcomingEntry today) (b.map (·.2)) = .ok es ∧
        out = es.filterMap id := by
    unfold getUpcomingBirthdays at hq
    cases hme : mapExcept (upcomingEntry today) (b.map (·.2)) with
    | error e => rw [hme] at hq; cases hq
    | ok es =>
      rw [hme] at hq
      injection hq with hq'
      exact ⟨es, rfl, hq'.symm⟩
  obtain ⟨v, hvmem, hfv⟩ :=
    mapExcept_ok_mem (upcomingEntry today) (b.map (·.2)) es hme r hr
  rw [hentry] at hfv
  injection hfv with hfv'
  subst hfv'
  have hmem : (nm, formatDMY
      (if 4 < weekday bty then dateAddDays bty (7 - weekday bty)
       else bty)) ∈ out := by
    rw [hout]
    exact List.mem_filterMap.mpr ⟨_, hvmem, rfl⟩
  refine ⟨_, hmem, ?_, ?_⟩
  · intro hwk
    rw [if_neg (by omega)]
  · intro hwk
    rw [if_pos hwk]
    have hw7 : weekday bty < 7 := weekday_lt bty
    have hwd : (rataDie bty + 6) % 7 = (weekday bty : Int) := weekday_int bty
    obtain ⟨hrd, -⟩ := rataDie_addDays bty hvb (7 - weekday bty)
    refine ⟨?_, ?_, ?_⟩
    · show ((rataDie (dateAddDays bty (7 - weekday bty)) + 6) % 7).toNat = 0
      rw [hrd]
      omega
    · rw [hrd]
      omega
    · intro k hk1 hk2
      rw [hrd] at hk2
      omega

/-- Witness for C3: today 2024-01-01 (a Monday), birthday 06.01.1990 —
this year's occurrence 2024-01-06 is a Saturday five days out, and the
query reports Monday 2024-01-08. -/
theorem birthday_weekend_shift_witness :
    ∃ c, ("Alice", formatDMY c) ∈ [("Alice", "08.01.2024")] ∧
      (weekday ⟨2024, 1, 6⟩ ≤ 4 → c = ⟨2024, 1, 6⟩) ∧
      (4 < weekday ⟨2024, 1, 6⟩ →
        weekday c = 0 ∧ rataDie ⟨2024, 1, 6⟩ < rataDie c ∧
        ∀ k : Int, rataDie ⟨2024, 1, 6⟩ < k → k < rataDie c →
          (k + 6) % 7 ≠ 0) :=
  birthday_weekend_shift ⟨2024, 1, 1⟩ bookBirthday
    [("Alice", "08.01.2024")]
    ⟨0, [("name", .one "Alice"), ("birthday", .one "06.01.1990")]⟩
    "Alice" "06.01.1990" ⟨1990, 1, 6⟩ ⟨2024, 1, 6⟩ ⟨2024, 1, 6⟩
    rfl (by simp [bookBirthday]) rfl rfl rfl rfl rfl (by decide)

end CAPythons
